import Mathlib

/-!
Verification of the Luhn checksum engine and identity-record synthesizer of
the `randomandroidphone` package (`src/__init__.py`).

The Python source is shallowly embedded below.  Python strings are `String`
(Python slicing / length act on code points, matching `String.data` as a
`List Char`), Python integers are `Nat`/`Int`, and every Python operation
that can raise an exception is modelled as an `Except Err` value.  All the
randomness of the source (`random.choice`, `random.randint`, `df.sample`)
is made explicit: each random draw becomes a parameter, and a theorem that
quantifies over those parameters covers every possible draw.
-/

/-- The exceptions the embedded code can raise.  `invalidSymbol` models the
`ValueError` of `str.index` on a character missing from the alphabet,
`indexError` models Python `IndexError`, `zeroDivisionError` models `% 0`,
`needPhoneNumber` models the explicit `ValueError` raised by
`RandomPhone._get_phone_number`, `emptySample` models the `ValueError`
raised by `DataFrame.sample()` on an empty frame, and
`noObjectsToConcatenate` models the `ValueError` of `pd.concat([])`. -/
inductive Err where
  | invalidSymbol
  | indexError
  | zeroDivisionError
  | needPhoneNumber
  | emptySample
  | noObjectsToConcatenate
deriving DecidableEq, Repr

/-- Equality of `Except` results is decidable (used to evaluate the
embedded functions on concrete inputs inside proofs). -/
instance {ε α : Type} [DecidableEq ε] [DecidableEq α] : DecidableEq (Except ε α) := fun x y =>
  match x, y with
  | .ok a, .ok b =>
    if h : a = b then .isTrue (by rw [h])
    else .isFalse (by intro hc; injection hc; contradiction)
  | .error a, .error b =>
    if h : a = b then .isTrue (by rw [h])
    else .isFalse (by intro hc; injection hc; contradiction)
  | .ok _, .error _ => .isFalse (fun hc => Except.noConfusion hc)
  | .error _, .ok _ => .isFalse (fun hc => Except.noConfusion hc)

/-- The ten decimal digit characters, i.e. the default alphabet
`"0123456789"` of the source. -/
def decChars : List Char := ['0', '1', '2', '3', '4', '5', '6', '7', '8', '9']

/-- The default alphabet `"0123456789"`. -/
def decimal : String := ⟨decChars⟩

/-- `alphabet.index(c)` for a list of characters: index of the first
occurrence, `none` when absent (Python raises `ValueError`). -/
def indexOfChar : List Char → Char → Option Nat
  | [], _ => none
  | a :: rest, c => if a = c then some 0 else (indexOfChar rest c).map (· + 1)

/-- `tuple(alphabet.index(i) for i in chars)`: maps every character to its
alphabet index, failing on the first character missing from the alphabet. -/
def indexList (alphabet : List Char) : List Char → Except Err (List Nat)
  | [] => .ok []
  | c :: rest =>
    match indexOfChar alphabet c with
    | none => .error .invalidSymbol
    | some i =>
      match indexList alphabet rest with
      | .error e => .error e
      | .ok is => .ok (i :: is)

/-- One summand of the Luhn sum: indices at even positions of the reversed
string count plainly, indices at odd positions contribute
`sum(divmod(i * 2, n))`. -/
def luhnTerm (n d : Nat) (dbl : Bool) : Nat :=
  if dbl then d * 2 / n + d * 2 % n else d

/-- `sum(number[::2]) + sum(sum(divmod(i * 2, n)) for i in number[1::2])`
over an index list (already reversed), with `dbl` saying whether the head
sits at an odd (doubled) position. -/
def luhnSum (n : Nat) : List Nat → Bool → Nat
  | [], _ => 0
  | d :: rest, dbl => luhnTerm n d dbl + luhnSum n rest (!dbl)

/-- `checksum(number, alphabet)` of the source (lines 7-20):
reverse the string, map characters to alphabet indices, and return the
generalized Luhn sum modulo `len(alphabet)`. -/
def checksum (number alphabet : String) : Except Err Nat :=
  match indexList alphabet.data number.data.reverse with
  | .error e => .error e
  | .ok ds =>
    if alphabet.data.length = 0 then .error .zeroDivisionError
    else .ok (luhnSum alphabet.data.length ds false % alphabet.data.length)

/-- Python `s[-i]` for a non-negative `i` (note `s[-0] = s[0]`): used to
model the `alphabet[-check_digit]` expression of the source. -/
def pyNegIndexChar (s : String) (i : Nat) : Except Err Char :=
  if i = 0 then
    match s.data with
    | [] => .error .indexError
    | c :: _ => .ok c
  else if i ≤ s.data.length then .ok (s.data.getD (s.data.length - i) '0')
  else .error .indexError

/-- `calc_check_digit(number, alphabet)` of the source (lines 23-35).
Faithful to the source, the inner `checksum` call is
`checksum(number + alphabet[0])`, i.e. it always uses the DEFAULT decimal
alphabet, regardless of the `alphabet` argument. -/
def calc_check_digit (number alphabet : String) : Except Err Char :=
  match alphabet.data with
  | [] => .error .indexError
  | a0 :: _ =>
    match checksum (String.push number a0) decimal with
    | .error e => .error e
    | .ok c => pyNegIndexChar alphabet c

/-! ## Python string helpers used by the synthesizer -/

/-- Python `s[:n]` (by code points). -/
def pyTake (n : Nat) (s : String) : String := ⟨s.data.take n⟩

/-- Python `s[-k:]` where `k` may be any integer (`s[-0:]` is all of `s`,
and a negative `-k` means `s[(k):]`). -/
def pyTailInt (s : String) (k : Int) : String :=
  if 0 < k then ⟨s.data.drop (s.data.length - min k.toNat s.data.length)⟩
  else ⟨s.data.drop (-k).toNat⟩

/-- Python `str.zfill(width)`: left-pad with `'0'` up to `width`, keeping a
leading sign character in front of the padding. -/
def zfill (s : String) (width : Nat) : String :=
  if width ≤ s.data.length then s
  else
    match s.data with
    | [] => ⟨List.replicate width '0'⟩
    | c :: rest =>
      if c = '+' ∨ c = '-' then ⟨c :: (List.replicate (width - s.data.length) '0' ++ rest)⟩
      else ⟨List.replicate (width - s.data.length) '0' ++ s.data⟩

/-- Python `re.sub(r"\D+", "", s)`: keep only the decimal digits
(the source data is ASCII, so `\d` is exactly `0-9` here). -/
def stripNonDigits (s : String) : String :=
  ⟨s.data.filter (fun c => decide (c ∈ decChars))⟩

/-- Python `str(n)` for a natural number. -/
def pyStr (n : Nat) : String := Nat.repr n

/-- Python `"".join(l)`. -/
def joinAll : List String → String
  | [] => ""
  | s :: rest => s ++ joinAll rest

/-- Python ASCII `str.upper` on one character. -/
def pyUpperChar (c : Char) : Char :=
  if 'a' ≤ c ∧ c ≤ 'z' then Char.ofNat (c.toNat - 32) else c

/-- Python ASCII `str.upper`. -/
def pyUpper (s : String) : String := ⟨s.data.map pyUpperChar⟩

/-- One lowercase hex digit, as produced by C-style `"%x"` formatting. -/
def hexDigitChar (n : Nat) : Char :=
  if n < 10 then Char.ofNat (48 + n) else Char.ofNat (87 + n)

/-- Python `"%02x" % n` for a byte `n` (the source only formats values of
`random.randint(0, 255)`, which always yield exactly two hex digits). -/
def hex2 (n : Nat) : String := ⟨[hexDigitChar (n / 16), hexDigitChar (n % 16)]⟩

/-! ## The identity synthesizer (`RandomPhone`) -/

/-- The device-table columns read by `_get_phone_data`: the Type Allocation
Code column `bb_tac1` and the MAC vendor-prefix column (named
`bb_mac_prefix` in the source). -/
structure DeviceRow where
  bb_tac1 : String
  bb_mac_pre : String
deriving DecidableEq, Repr

/-- The operator-table columns read by `_get_phone_data`. -/
structure OperatorRow where
  aa_mcc : String
  aa_mnc : String
  aa_line : String
deriving DecidableEq, Repr

/-- The derived columns `cc_*` that `_get_phone_data` assigns to the
sampled rows (the sampled reference columns are carried unchanged by the
source and are omitted here). -/
structure PhoneRec where
  cc_imsi : String
  cc_imei : String
  cc_iccid : String
  cc_macaddress : String
  cc_phone_number : String
deriving DecidableEq, Repr

/-- The state of a `RandomPhone` instance after `__init__`:
the zfill-normalized format chunks and the two reference tables
(`df2` already filtered to the rows whose country matched). -/
structure RandomPhone where
  phone_format_without_country : List (List String)
  df : List DeviceRow
  df2 : List OperatorRow
deriving DecidableEq, Repr

/-- `len(sorted(x, key=len)[-1])`: the length of a longest fragment of a
chunk (the source raises `IndexError` on an empty chunk; callers guard). -/
def maxFragLen (chunk : List String) : Nat :=
  chunk.foldl (fun m s => max m s.data.length) 0

/-- The per-chunk normalization of `__init__` (lines 55-64): every fragment
is zfill-padded to the length of the longest fragment of its chunk.
`none` models the `IndexError` that `sorted(x, key=len)[-1]` raises on an
empty chunk. -/
def normalizeChunk (chunk : List String) : Option (List String) :=
  match chunk with
  | [] => none
  | _ => some (chunk.map (fun y => zfill y (maxFragLen chunk)))

/-- The normalization of the whole format specification in `__init__`. -/
def normalizeFormat : List (List String) → Option (List (List String))
  | [] => some []
  | chunk :: rest =>
    match normalizeChunk chunk, normalizeFormat rest with
    | some c, some cs => some (c :: cs)
    | _, _ => none

/-- Construction of a `RandomPhone` (modulo loading the pickles and the
country filter, which only determine the contents of `df` and `df2`):
normalizes the format chunks. -/
def RandomPhone.init (fmtRaw : List (List String)) (df : List DeviceRow)
    (df2 : List OperatorRow) : Option RandomPhone :=
  (normalizeFormat fmtRaw).map (fun f => ⟨f, df, df2⟩)

/-- Python truthiness of an optional string (`None` and `""` are falsy). -/
def truthy : Option String → Bool
  | none => false
  | some s => !s.data.isEmpty

/-- `random.choice(chunk)`: the drawn index `i` is explicit; any fragment
of a non-empty chunk can be drawn, and an empty chunk raises. -/
def chooseFrag (chunk : List String) (i : Nat) : Except Err String :=
  match chunk with
  | [] => .error .indexError
  | x :: xs => .ok ((x :: xs).getD (i % (x :: xs).length) x)

/-- The `for chunks in ...: formatedphone.append(random.choice(chunks))`
loop: `sel k` is the index drawn for chunk number `k`. -/
def chooseFrags (sel : Nat → Nat) : Nat → List (List String) → Except Err (List String)
  | _, [] => .ok []
  | k, chunk :: rest =>
    match chooseFrag chunk (sel k) with
    | .error e => .error e
    | .ok f =>
      match chooseFrags sel (k + 1) rest with
      | .error e => .error e
      | .ok fs => .ok (f :: fs)

/-- `RandomPhone._get_phone_number` (lines 78-91): an explicit (truthy)
phone number wins; otherwise a non-empty format builds one; otherwise a
`ValueError` is raised.  The result is always stripped of non-digits. -/
def _get_phone_number (format : List (List String)) (phonenumber : Option String)
    (sel : Nat → Nat) : Except Err String :=
  if truthy phonenumber then .ok (stripNonDigits (phonenumber.getD ""))
  else if format.isEmpty then .error .needPhoneNumber
  else
    match chooseFrags sel 0 format with
    | .error e => .error e
    | .ok frags => .ok (stripNonDigits (joinAll frags))

/-- `df.sample()`: the drawn row index `i` is explicit; any row of a
non-empty table can be drawn, and an empty table raises `ValueError`. -/
def sampleRow {α : Type} : List α → Nat → Except Err α
  | [], _ => .error .emptySample
  | x :: xs, i => .ok ((x :: xs).getD (i % (x :: xs).length) x)

/-- `(tac + str(random.randint(0, 999999)).zfill(6))[:14]` (line 101). -/
def imeiBase (dev : DeviceRow) (rand6 : Nat) : String :=
  pyTake 14 (dev.bb_tac1 ++ zfill (pyStr rand6) 6)

/-- `("89" + (line + "0"*6)[:6] + mnc + (phone + 12*"0")[:10])[:19]`
(lines 106-111). -/
def iccidBase (op : OperatorRow) (phonenumber : String) : String :=
  pyTake 19 ("89" ++ pyTake 6 (op.aa_line ++ "000000") ++ op.aa_mnc
    ++ pyTake 10 (phonenumber ++ "000000000000"))

/-- The MAC construction of lines 114-122: vendor prefix plus the last
`17 - len(prefix)` characters of `":%02x:%02x:%02x"` of three random
octets, uppercased. -/
def buildMac (pre : String) (m1 m2 m3 : Nat) : String :=
  pyUpper (pre ++ pyTailInt (":" ++ hex2 m1 ++ ":" ++ hex2 m2 ++ ":" ++ hex2 m3)
    ((17 : Int) - pre.data.length))

/-- The record assembly of `_get_phone_data` after the rows are sampled
(lines 99-130): `rand6` is the `random.randint(0, 999999)` draw and
`m1 m2 m3` are the three `random.randint(0, 255)` octet draws. -/
def derive (dev : DeviceRow) (op : OperatorRow) (phonenumber : String)
    (rand6 m1 m2 m3 : Nat) : Except Err PhoneRec :=
  match calc_check_digit (imeiBase dev rand6) decimal with
  | .error e => .error e
  | .ok ck1 =>
    match calc_check_digit (iccidBase op phonenumber) decimal with
    | .error e => .error e
    | .ok ck2 =>
      .ok ⟨pyTake 15 (op.aa_mcc ++ op.aa_mnc ++ phonenumber),
           String.push (imeiBase dev rand6) ck1,
           String.push (iccidBase op phonenumber) ck2,
           buildMac dev.bb_mac_pre m1 m2 m3,
           op.aa_line ++ phonenumber⟩

/-- `RandomPhone._get_phone_data` (lines 93-130): build the phone number,
sample one device row, sample one operator row, derive the `cc_*` fields. -/
def _get_phone_data (self : RandomPhone) (phonenumber : Option String)
    (sel : Nat → Nat) (devIdx opIdx rand6 m1 m2 m3 : Nat) : Except Err PhoneRec :=
  match _get_phone_number self.phone_format_without_country phonenumber sel with
  | .error e => .error e
  | .ok p =>
    match sampleRow self.df devIdx with
    | .error e => .error e
    | .ok dev =>
      match sampleRow self.df2 opIdx with
      | .error e => .error e
      | .ok op => derive dev op p rand6 m1 m2 m3

/-- The result of `RandomPhone.get_phone_data`: a single record when the
collected list has length one, otherwise the concatenation of the
collected one-row frames. -/
inductive GetPhoneDataResult where
  | single : PhoneRec → GetPhoneDataResult
  | many : List PhoneRec → GetPhoneDataResult
deriving DecidableEq, Repr

/-- The `if len(allresults) == 1: return allresults[0]` /
`return pd.concat(allresults, ignore_index=True)` tail of
`get_phone_data`; `pd.concat` of an empty list raises `ValueError`. -/
def finishResults : List PhoneRec → Except Err GetPhoneDataResult
  | [] => .error .noObjectsToConcatenate
  | [r] => .ok (GetPhoneDataResult.single r)
  | rs => .ok (GetPhoneDataResult.many rs)

/-- The `while len(allresults) < qty` retry loop of `get_phone_data`
(lines 243-248): a successful attempt is appended, a failed attempt is
silently discarded (`except Exception: continue`).  `fuel` bounds the
number of loop iterations we unfold; `none` means the loop is still
running after `fuel` iterations (the source has no bound at all). -/
def get_phone_data_loop (attempt : Nat → Except Err PhoneRec) (qty : Nat) :
    Nat → Nat → List PhoneRec → Option (List PhoneRec)
  | 0, _, acc => if acc.length < qty then none else some acc
  | fuel + 1, i, acc =>
    if acc.length < qty then
      match attempt i with
      | .ok r => get_phone_data_loop attempt qty fuel (i + 1) (acc ++ [r])
      | .error _ => get_phone_data_loop attempt qty fuel (i + 1) acc
    else some acc

/-- `RandomPhone.get_phone_data` (lines 132-251): the retry loop followed
by the single/concat return.  Each of `sel, devIdx, opIdx, rand6, m1, m2,
m3` is a stream of random draws, indexed by the attempt number. -/
def get_phone_data (self : RandomPhone) (phonenumber : Option String)
    (sel : Nat → Nat → Nat) (devIdx opIdx rand6 m1 m2 m3 : Nat → Nat)
    (qty fuel : Nat) : Option (Except Err GetPhoneDataResult) :=
  Option.map finishResults
    (get_phone_data_loop
      (fun i => _get_phone_data self phonenumber (sel i) (devIdx i) (opIdx i)
        (rand6 i) (m1 i) (m2 i) (m3 i))
      qty fuel 0 [])

/-! ## Predicates and concrete data used by the claim statements -/

/-- The digit value of a decimal digit character. -/
def charDigit (c : Char) : Nat := c.toNat - 48

/-- Every character of `s` is a decimal digit. -/
def digitsStr (s : String) : Prop := ∀ c ∈ s.data, c ∈ decChars

/-- `digitsStr` is decidable, so it can be checked on concrete strings. -/
instance (s : String) : Decidable (digitsStr s) :=
  inferInstanceAs (Decidable (∀ c ∈ s.data, c ∈ decChars))

/-- Hexadecimal digit characters, either case (order irrelevant: the list
is only used as a membership set). -/
def hexChars : List Char :=
  ['A', 'B', 'C', 'D', 'E', 'F', 'a', 'b', 'c', 'd', 'e', 'f',
   '0', '1', '2', '3', '4', '5', '6', '7', '8', '9']

/-- Uppercase hexadecimal digit characters. -/
def upperHexChars : List Char :=
  ['0', '1', '2', '3', '4', '5', '6', '7', '8', '9', 'A', 'B', 'C', 'D', 'E', 'F']

/-- `c` is an uppercase hexadecimal digit. -/
def isUpperHex (c : Char) : Bool := decide (c ∈ upperHexChars)

/-- The MAC vendor prefixes of the reference device table have the shape
`hh:hh:hh`: exactly 8 characters, colons at positions 2 and 5, hex digits
elsewhere. -/
def macPrefix8 (s : String) : Bool :=
  match s.data with
  | [a, b, c1, d, e, c2, f, g] =>
    c1 == ':' && c2 == ':' &&
      [a, b, d, e, f, g].all (fun c => decide (c ∈ hexChars))
  | _ => false

/-- A well-formed MAC string: exactly 17 characters, colons exactly at
positions 2, 5, 8, 11 and 14, uppercase hex digits everywhere else. -/
def macShape : List Char → Bool
  | [x0, x1, c1, x3, x4, c2, x6, x7, c3, x9, x10, c4, x12, x13, c5, x15, x16] =>
    c1 == ':' && c2 == ':' && c3 == ':' && c4 == ':' && c5 == ':' &&
      [x0, x1, x3, x4, x6, x7, x9, x10, x12, x13, x15, x16].all isUpperHex
  | _ => false

/-- Extract the value of a successful `Except`, with a default. -/
def exOk {α : Type} (e : Except Err α) (d : α) : α :=
  match e with
  | .ok r => r
  | .error _ => d

/-- A concrete device row used by the witnesses (8-digit TAC, 8-character
vendor prefix, as in the reference table). -/
def wDev : DeviceRow := ⟨"12345678", "00:1a:2b"⟩

/-- A concrete operator row used by the witnesses. -/
def wOp : OperatorRow := ⟨"724", "11", "55"⟩

/-- A concrete `RandomPhone` state used by the witnesses: no format
chunks, one device row, one operator row. -/
def wSelf : RandomPhone := ⟨[], [wDev], [wOp]⟩

/-- The record generated from `wSelf` with an explicit phone number and
fixed random draws (used by several witnesses). -/
def wRec : PhoneRec :=
  exOk (_get_phone_data wSelf (some "123456") (fun _ => 0) 0 0 0 255 0 171)
    ⟨"", "", "", "", ""⟩

/-- The record derived directly from `wDev`/`wOp` with fixed draws (used
by the C6 witness). -/
def wDRec : PhoneRec :=
  exOk (derive wDev wOp "123456" 0 255 0 171) ⟨"", "", "", "", ""⟩

/-- A `RandomPhone` state whose operator table is empty, modelling a
construction with a country string that matched zero operator rows. -/
def wSelfNoOps : RandomPhone := ⟨[], [wDev], []⟩

/-- A device row with a 1-digit TAC and a 5-character MAC vendor prefix,
used to exercise `_get_phone_data` on short reference fields. -/
def wDevShort : DeviceRow := ⟨"1", "00:0A"⟩

/-- An operator row with an empty `mnc` field. -/
def wOpNoMnc : OperatorRow := ⟨"724", "", "55"⟩

/-- A `RandomPhone` state with short reference fields. -/
def wSelfShort : RandomPhone := ⟨[], [wDevShort], [wOpNoMnc]⟩

/-- The `RandomPhone` state constructed from the format chunks
`[["11","12"], ["9"], ["0001"]]` (used by the C9 witness). -/
def wSelfFmt : RandomPhone := ⟨[["11", "12"], ["9"], ["0001"]], [wDev], [wOp]⟩

/-- The result of `get_phone_data` on `wSelf` with `qty = 2` (used by the
C8 witness). -/
def wOut2 : Except Err GetPhoneDataResult :=
  (get_phone_data wSelf (some "123456") (fun _ _ => 0) (fun _ => 0) (fun _ => 0)
      (fun _ => 0) (fun _ => 255) (fun _ => 0) (fun _ => 171) 2 2).getD
    (.error .indexError)

/-! ## Basic lemmas -/

theorem decimal_val : decimal = "0123456789" := rfl

theorem string_data_append (s t : String) : (s ++ t).data = s.data ++ t.data := by
  cases s; cases t; rfl

theorem string_data_push (s : String) (c : Char) :
    (String.push s c).data = s.data ++ [c] := by
  cases s; rfl

theorem digitsStr_append {s t : String} (hs : digitsStr s) (ht : digitsStr t) :
    digitsStr (s ++ t) := by
  intro c hc
  rw [string_data_append] at hc
  rcases List.mem_append.mp hc with h | h
  · exact hs c h
  · exact ht c h

theorem digitsStr_push {s : String} {c : Char} (hs : digitsStr s) (hc : c ∈ decChars) :
    digitsStr (String.push s c) := by
  intro d hd
  rw [string_data_push] at hd
  rcases List.mem_append.mp hd with h | h
  · exact hs d h
  · simp only [List.mem_singleton] at h
    subst h
    exact hc

theorem digitsStr_pyTake {s : String} (hs : digitsStr s) (n : Nat) :
    digitsStr (pyTake n s) := by
  intro c hc
  exact hs c (List.mem_of_mem_take hc)

theorem zfill_chars {s : String} {w : Nat} {c : Char} (hc : c ∈ (zfill s w).data) :
    c ∈ s.data ∨ c = '0' := by
  unfold zfill at hc
  split at hc
  · exact Or.inl hc
  · split at hc
    · simp only [List.mem_replicate] at hc
      exact Or.inr hc.2
    · rename_i lst ch rest heq
      split at hc
      · simp only [List.mem_cons, List.mem_append, List.mem_replicate] at hc
        rcases hc with rfl | h | h
        · exact Or.inl (heq ▸ List.mem_cons_self _ _)
        · exact Or.inr h.2
        · exact Or.inl (heq ▸ List.mem_cons_of_mem _ h)
      · simp only [List.mem_append, List.mem_replicate] at hc
        rcases hc with h | h
        · exact Or.inr h.2
        · exact Or.inl h

theorem digitsStr_zfill {s : String} (hs : digitsStr s) (w : Nat) :
    digitsStr (zfill s w) := by
  intro c hc
  rcases zfill_chars hc with h | h
  · exact hs c h
  · subst h; decide

theorem digitsStr_strip (s : String) : digitsStr (stripNonDigits s) := by
  intro c hc
  exact of_decide_eq_true (List.mem_filter.mp hc).2

theorem digitChar_mem {m : Nat} (h : m < 10) : Nat.digitChar m ∈ decChars := by
  interval_cases m <;> decide

theorem toDigitsCore_mem : ∀ (fuel n : Nat) (acc : List Char),
    (∀ c ∈ acc, c ∈ decChars) → ∀ c ∈ Nat.toDigitsCore 10 fuel n acc, c ∈ decChars := by
  intro fuel
  induction fuel with
  | zero =>
    intro n acc hacc c hc
    exact hacc c hc
  | succ f ih =>
    intro n acc hacc c hc
    rw [Nat.toDigitsCore] at hc
    have hcons : ∀ x ∈ Nat.digitChar (n % 10) :: acc, x ∈ decChars := by
      intro x hx
      rcases List.mem_cons.mp hx with rfl | hx
      · exact digitChar_mem (Nat.mod_lt _ (by norm_num))
      · exact hacc x hx
    by_cases h0 : n / 10 = 0
    · rw [if_pos h0] at hc
      exact hcons c hc
    · rw [if_neg h0] at hc
      exact ih (n / 10) _ hcons c hc

theorem digitsStr_pyStr (n : Nat) : digitsStr (pyStr n) := by
  intro c hc
  have hdata : (pyStr n).data = Nat.toDigitsCore 10 (n + 1) n [] := rfl
  rw [hdata] at hc
  exact toDigitsCore_mem (n + 1) n [] (by simp) c hc

/-! ## Luhn lemmas over the decimal alphabet -/

theorem indexOfChar_dec {c : Char} (h : c ∈ decChars) :
    indexOfChar decChars c = some (charDigit c) := by
  fin_cases h <;> decide

theorem indexList_dec : ∀ l : List Char, (∀ c ∈ l, c ∈ decChars) →
    indexList decChars l = .ok (l.map charDigit) := by
  intro l
  induction l with
  | nil => intro _; rfl
  | cons c rest ih =>
    intro h
    rw [indexList, indexOfChar_dec (h c (List.mem_cons_self c rest)),
      ih (fun x hx => h x (List.mem_cons_of_mem c hx))]
    rfl

theorem checksum_dec {s : String} (hs : digitsStr s) :
    checksum s decimal = .ok (luhnSum 10 (s.data.reverse.map charDigit) false % 10) := by
  rw [show checksum s decimal =
      (match indexList decChars s.data.reverse with
       | .error e => .error e
       | .ok ds =>
         if decChars.length = 0 then .error Err.zeroDivisionError
         else .ok (luhnSum decChars.length ds false % decChars.length)) from rfl]
  rw [indexList_dec _ (fun c hc => hs c (List.mem_reverse.mp hc))]
  rfl

theorem pyNeg_dec {c : Nat} (h : c < 10) :
    ∃ ck, pyNegIndexChar decimal c = .ok ck ∧ ck ∈ decChars ∧
      charDigit ck = (10 - c) % 10 := by
  interval_cases c <;> exact ⟨_, rfl, by decide, by decide⟩

theorem calc_check_digit_dec_eq {s : String} (hs : digitsStr s) :
    calc_check_digit s decimal =
      pyNegIndexChar decimal (luhnSum 10 (s.data.reverse.map charDigit) true % 10) := by
  have h0 : digitsStr (String.push s '0') := digitsStr_push hs (by decide)
  have hx : checksum (String.push s '0') decimal =
      .ok (luhnSum 10 (s.data.reverse.map charDigit) true % 10) := by
    rw [checksum_dec h0, string_data_push]
    simp only [List.reverse_append, List.reverse_cons, List.reverse_nil, List.nil_append,
      List.map_cons, List.singleton_append]
    rw [show charDigit '0' = 0 from by decide]
    simp [luhnSum, luhnTerm]
  calc calc_check_digit s decimal
      = (match checksum (String.push s '0') decimal with
         | .error e => .error e
         | .ok c => pyNegIndexChar decimal c) := rfl
    _ = pyNegIndexChar decimal (luhnSum 10 (s.data.reverse.map charDigit) true % 10) := by
        rw [hx]

theorem calc_check_digit_dec {s : String} {ck : Char} (hs : digitsStr s)
    (h : calc_check_digit s decimal = .ok ck) :
    ck ∈ decChars ∧ checksum (String.push s ck) decimal = .ok 0 := by
  rw [calc_check_digit_dec_eq hs] at h
  obtain ⟨ck', e1, e2, e3⟩ :=
    pyNeg_dec (Nat.mod_lt (luhnSum 10 (s.data.reverse.map charDigit) true) (by norm_num))
  rw [e1] at h
  have hck : ck' = ck := by
    injection h
  subst hck
  refine ⟨e2, ?_⟩
  rw [checksum_dec (digitsStr_push hs e2), string_data_push]
  simp only [List.reverse_append, List.reverse_cons, List.reverse_nil, List.nil_append,
    List.map_cons, List.singleton_append]
  rw [show luhnSum 10 (charDigit ck' :: s.data.reverse.map charDigit) false
      = charDigit ck' + luhnSum 10 (s.data.reverse.map charDigit) true from rfl, e3]
  have : ((10 - luhnSum 10 (s.data.reverse.map charDigit) true % 10) % 10
      + luhnSum 10 (s.data.reverse.map charDigit) true) % 10 = 0 := by omega
  rw [this]

/-! ## Claims about the checksum engine (C5, C2) -/

/-- C5 counterexample: under the default decimal alphabet,
`checksum("7992739871")` evaluates to 6, not 3 as claimed. -/
theorem c5_counterexample : ¬ checksum "7992739871" decimal = Except.ok 3 := by decide

/-- C5 (amended): under the default decimal alphabet,
`checksum("7992739871") == 6`; the classic Luhn check digit 3 of the
worked example appears as `calc_check_digit("7992739871") == "3"`,
equivalently `checksum("79927398713") == 0`. -/
theorem c5_luhn_reference_values :
    checksum "7992739871" decimal = Except.ok 6 ∧
      calc_check_digit "7992739871" decimal = Except.ok '3' ∧
      checksum "79927398713" decimal = Except.ok 0 := by decide

/-- C2: the claim `checksum(s + calc_check_digit(s, A), A) == 0` for every
alphabet `A` fails, because `calc_check_digit` computes its inner checksum
with the DEFAULT decimal alphabet instead of `A` (contradicting its own
docstring).  At `s = "1"`, `A = "01"`: the produced check digit is `'0'`,
and the checksum of `"1" + "0"` over `"01"` is 1, not 0. -/
theorem c2_check_digit_alphabet_bug :
    calc_check_digit "1" "01" = Except.ok '0' ∧
      checksum (String.push "1" '0') "01" = Except.ok 1 := by decide

/-! ## Extraction lemmas for the synthesizer -/

theorem sampleRow_mem {α : Type} {l : List α} {i : Nat} {r : α}
    (h : sampleRow l i = .ok r) : r ∈ l := by
  cases l with
  | nil => exact absurd h (by simp [sampleRow])
  | cons x xs =>
    unfold sampleRow at h
    injection h with h
    subst h
    have hlt : i % (x :: xs).length < (x :: xs).length := Nat.mod_lt _ (by simp)
    rw [List.getD_eq_getElem _ _ hlt]
    exact List.getElem_mem hlt

theorem get_phone_number_digits {fmt : List (List String)} {ph : Option String}
    {sel : Nat → Nat} {p : String} (h : _get_phone_number fmt ph sel = .ok p) :
    digitsStr p := by
  unfold _get_phone_number at h
  split at h
  · injection h with h
    subst h
    exact digitsStr_strip _
  · split at h
    · exact absurd h (by simp)
    · split at h
      · exact absurd h (by simp)
      · injection h with h
        subst h
        exact digitsStr_strip _

theorem get_phone_data_ok {self : RandomPhone} {ph : Option String} {sel : Nat → Nat}
    {devIdx opIdx rand6 m1 m2 m3 : Nat} {rec : PhoneRec}
    (h : _get_phone_data self ph sel devIdx opIdx rand6 m1 m2 m3 = .ok rec) :
    ∃ p dev op, _get_phone_number self.phone_format_without_country ph sel = .ok p ∧
      dev ∈ self.df ∧ op ∈ self.df2 ∧ derive dev op p rand6 m1 m2 m3 = .ok rec := by
  unfold _get_phone_data at h
  split at h
  · exact absurd h (by simp)
  · rename_i p hp
    split at h
    · exact absurd h (by simp)
    · rename_i dev hdev
      split at h
      · exact absurd h (by simp)
      · rename_i op hop
        exact ⟨p, dev, op, hp, sampleRow_mem hdev, sampleRow_mem hop, h⟩

theorem derive_ok {dev : DeviceRow} {op : OperatorRow} {p : String}
    {rand6 m1 m2 m3 : Nat} {rec : PhoneRec}
    (h : derive dev op p rand6 m1 m2 m3 = .ok rec) :
    ∃ ck1 ck2, calc_check_digit (imeiBase dev rand6) decimal = .ok ck1 ∧
      calc_check_digit (iccidBase op p) decimal = .ok ck2 ∧
      rec = ⟨pyTake 15 (op.aa_mcc ++ op.aa_mnc ++ p),
             String.push (imeiBase dev rand6) ck1,
             String.push (iccidBase op p) ck2,
             buildMac dev.bb_mac_pre m1 m2 m3,
             op.aa_line ++ p⟩ := by
  unfold derive at h
  split at h
  · exact absurd h (by simp)
  · rename_i ck1 hck1
    split at h
    · exact absurd h (by simp)
    · rename_i ck2 hck2
      injection h with h
      exact ⟨ck1, ck2, hck1, hck2, h.symm⟩

/-! ## C1: generated IMEI and ICCID are Luhn-valid -/

/-- C1: for every record generated by `_get_phone_data` (over any state,
any explicit phone number, and any random draws), if the sampled `tac`,
`mcc`, `mnc` and `line` reference fields are decimal-digit strings, then
the derived `imei` and `iccid` fields pass Luhn validation under the
decimal alphabet: `checksum(imei) == 0` and `checksum(iccid) == 0`. -/
theorem c1_generated_imei_iccid_luhn_valid
    {self : RandomPhone} {ph : Option String} {sel : Nat → Nat}
    {devIdx opIdx rand6 m1 m2 m3 : Nat} {rec : PhoneRec}
    (hdev : ∀ d ∈ self.df, digitsStr d.bb_tac1)
    (hop : ∀ o ∈ self.df2, digitsStr o.aa_mcc ∧ digitsStr o.aa_mnc ∧ digitsStr o.aa_line)
    (h : _get_phone_data self ph sel devIdx opIdx rand6 m1 m2 m3 = .ok rec) :
    checksum rec.cc_imei decimal = .ok 0 ∧ checksum rec.cc_iccid decimal = .ok 0 := by
  obtain ⟨p, dev, op, hp, hdm, hom, hder⟩ := get_phone_data_ok h
  obtain ⟨ck1, ck2, hck1, hck2, hrec⟩ := derive_ok hder
  have htac : digitsStr (imeiBase dev rand6) :=
    digitsStr_pyTake
      (digitsStr_append (hdev dev hdm) (digitsStr_zfill (digitsStr_pyStr rand6) 6)) 14
  have hpd : digitsStr p := get_phone_number_digits hp
  obtain ⟨hmcc, hmnc, hline⟩ := hop op hom
  have hicc : digitsStr (iccidBase op p) :=
    digitsStr_pyTake
      (digitsStr_append
        (digitsStr_append
          (digitsStr_append (by decide) (digitsStr_pyTake (digitsStr_append hline (by decide)) 6))
          hmnc)
        (digitsStr_pyTake (digitsStr_append hpd (by decide)) 10)) 19
  subst hrec
  exact ⟨(calc_check_digit_dec htac hck1).2, (calc_check_digit_dec hicc hck2).2⟩

/-- C1 witness: the record generated from the concrete state `wSelf` with
phone `"123456"` and fixed draws has Luhn-valid `imei` and `iccid`. -/
theorem c1_witness :
    checksum wRec.cc_imei decimal = .ok 0 ∧ checksum wRec.cc_iccid decimal = .ok 0 :=
  c1_generated_imei_iccid_luhn_valid (by decide) (by decide)
    (rfl : _get_phone_data wSelf (some "123456") (fun _ => 0) 0 0 0 255 0 171
      = Except.ok wRec)

/-! ## Length lemmas and C7 -/

theorem pyTake_len (n : Nat) (s : String) : (pyTake n s).length = min n s.length := by
  show (s.data.take n).length = min n s.data.length
  exact List.length_take n s.data

theorem string_len_append (s t : String) : (s ++ t).length = s.length + t.length := by
  show (s.data ++ t.data).length = s.data.length + t.data.length
  exact List.length_append s.data t.data

theorem string_len_push (s : String) (c : Char) :
    (String.push s c).length = s.length + 1 := by
  show (s.data ++ [c]).length = s.data.length + 1
  simp

theorem zfill_length (s : String) (w : Nat) : (zfill s w).length = max w s.length := by
  unfold zfill
  split
  · rename_i hle
    simp only [String.length] at hle ⊢
    omega
  · split
    · rename_i hlt heq
      simp only [String.length, heq, List.length_replicate, List.length_nil] at hlt ⊢
      omega
    · rename_i hlt c rest heq
      split
      · simp only [String.length, heq, List.length_cons, List.length_append,
          List.length_replicate] at hlt ⊢
        omega
      · simp only [String.length, heq, List.length_cons, List.length_append,
          List.length_replicate] at hlt ⊢
        omega

/-- C7 counterexample: with a sampled device row whose `tac` is the 1-digit
string `"1"` and a sampled operator row whose `mnc` is empty, the generated
record has `imei` of length 8 (not 15) and `iccid` of length 19 (not 20). -/
theorem c7_counterexample :
    Except.map (fun r => (r.cc_imei.length, r.cc_iccid.length))
      (_get_phone_data wSelfShort (some "123456") (fun _ => 0) 0 0 0 0 0 0)
      = Except.ok (8, 19) := by decide

/-- C7 (amended): for every generated record, `imsi` has length at most
15; `imei` has length exactly 15 (14 truncated characters plus the check
digit) whenever the sampled `tac` has at least 8 characters, as the
reference TACs do; and `iccid` has length exactly 20 (19 truncated
characters plus the check digit) whenever the sampled `mnc` is non-empty. -/
theorem c7_identifier_lengths
    {self : RandomPhone} {ph : Option String} {sel : Nat → Nat}
    {devIdx opIdx rand6 m1 m2 m3 : Nat} {rec : PhoneRec}
    (hdev : ∀ d ∈ self.df, 8 ≤ d.bb_tac1.length)
    (hop : ∀ o ∈ self.df2, 1 ≤ o.aa_mnc.length)
    (h : _get_phone_data self ph sel devIdx opIdx rand6 m1 m2 m3 = .ok rec) :
    rec.cc_imsi.length ≤ 15 ∧ rec.cc_imei.length = 15 ∧ rec.cc_iccid.length = 20 := by
  obtain ⟨p, dev, op, hp, hdm, hom, hder⟩ := get_phone_data_ok h
  obtain ⟨ck1, ck2, hck1, hck2, hrec⟩ := derive_ok hder
  subst hrec
  have htac := hdev dev hdm
  have hmnc := hop op hom
  refine ⟨?_, ?_, ?_⟩
  · rw [pyTake_len]
    omega
  · show (String.push (imeiBase dev rand6) ck1).length = 15
    rw [string_len_push]
    unfold imeiBase
    rw [pyTake_len, string_len_append, zfill_length]
    omega
  · show (String.push (iccidBase op p) ck2).length = 20
    rw [string_len_push]
    unfold iccidBase
    rw [pyTake_len, string_len_append, string_len_append, string_len_append,
      pyTake_len, pyTake_len, string_len_append, string_len_append]
    have h89 : ("89" : String).length = 2 := rfl
    have h06 : ("000000" : String).length = 6 := rfl
    have h012 : ("000000000000" : String).length = 12 := rfl
    rw [h89, h06, h012]
    omega

/-- C7 witness: the record generated from `wSelf` (8-digit TAC, 2-digit
mnc) has `imsi` length at most 15, `imei` length 15 and `iccid` length 20. -/
theorem c7_witness :
    wRec.cc_imsi.length ≤ 15 ∧ wRec.cc_imei.length = 15 ∧ wRec.cc_iccid.length = 20 :=
  c7_identifier_lengths (by decide) (by decide)
    (rfl : _get_phone_data wSelf (some "123456") (fun _ => 0) 0 0 0 255 0 171
      = Except.ok wRec)

/-! ## C6: MAC address shape -/

theorem pyUpperChar_hex {c : Char} (h : c ∈ hexChars) :
    isUpperHex (pyUpperChar c) = true := by
  fin_cases h <;> decide

theorem hexDigit_upperHex {n : Nat} (h : n ≤ 15) :
    isUpperHex (pyUpperChar (hexDigitChar n)) = true := by
  interval_cases n <;> decide

theorem buildMac_shape {pre : String} {m1 m2 m3 : Nat}
    (hpre : macPrefix8 pre = true) (h1 : m1 ≤ 255) (h2 : m2 ≤ 255) (h3 : m3 ≤ 255) :
    (buildMac pre m1 m2 m3).length = 17 ∧
      macShape (buildMac pre m1 m2 m3).data = true ∧
      pyTake 8 (buildMac pre m1 m2 m3) = pyUpper pre := by
  obtain ⟨l⟩ := pre
  unfold macPrefix8 at hpre
  split at hpre
  · rename_i a b c1 d e c2 f g heq
    have hl : l = [a, b, c1, d, e, c2, f, g] := heq
    subst hl
    simp only [Bool.and_eq_true, beq_iff_eq, List.all_eq_true, decide_eq_true_eq] at hpre
    obtain ⟨⟨hc1, hc2⟩, hall⟩ := hpre
    subst hc1
    subst hc2
    refine ⟨rfl, ?_, rfl⟩
    have hsh : macShape (buildMac ⟨[a, b, ':', d, e, ':', f, g]⟩ m1 m2 m3).data
        = ([pyUpperChar a, pyUpperChar b, pyUpperChar d, pyUpperChar e,
            pyUpperChar f, pyUpperChar g,
            pyUpperChar (hexDigitChar (m1 / 16)), pyUpperChar (hexDigitChar (m1 % 16)),
            pyUpperChar (hexDigitChar (m2 / 16)), pyUpperChar (hexDigitChar (m2 % 16)),
            pyUpperChar (hexDigitChar (m3 / 16)),
            pyUpperChar (hexDigitChar (m3 % 16))].all isUpperHex) := rfl
    rw [hsh, List.all_eq_true]
    intro x hx
    simp only [List.mem_cons, List.not_mem_nil, or_false] at hx
    rcases hx with rfl | rfl | rfl | rfl | rfl | rfl | rfl | rfl | rfl | rfl | rfl | rfl
    · exact pyUpperChar_hex (hall a (by simp))
    · exact pyUpperChar_hex (hall b (by simp))
    · exact pyUpperChar_hex (hall d (by simp))
    · exact pyUpperChar_hex (hall e (by simp))
    · exact pyUpperChar_hex (hall f (by simp))
    · exact pyUpperChar_hex (hall g (by simp))
    · exact hexDigit_upperHex (by omega)
    · exact hexDigit_upperHex (by omega)
    · exact hexDigit_upperHex (by omega)
    · exact hexDigit_upperHex (by omega)
    · exact hexDigit_upperHex (by omega)
    · exact hexDigit_upperHex (by omega)
  · exact absurd hpre (by simp)

/-- C6 counterexample: with a sampled device row whose MAC vendor prefix
is the 5-character string `"00:0A"`, the generated `mac_address` has
length 14, not 17 (for a prefix of length `L < 8` the field has length
`L + 9`). -/
theorem c6_counterexample :
    Except.map (fun r => r.cc_macaddress.length)
      (_get_phone_data wSelfShort (some "123456") (fun _ => 0) 0 0 0 0 0 0)
      = Except.ok 14 := by decide

/-- C6 (amended): whenever the sampled device row's MAC vendor prefix has
the reference shape `hh:hh:hh` (8 characters: colons at positions 2 and 5,
hex digits elsewhere) and the three octet draws are bytes, the generated
`mac_address` is exactly 17 characters, has colons exactly at positions
2, 5, 8, 11 and 14 with uppercase hex digits everywhere else, and its
first 8 characters are the (uppercased) vendor prefix. -/
theorem c6_mac_wellformed {dev : DeviceRow} {op : OperatorRow} {p : String}
    {rand6 m1 m2 m3 : Nat} {rec : PhoneRec}
    (hpre : macPrefix8 dev.bb_mac_pre = true)
    (h1 : m1 ≤ 255) (h2 : m2 ≤ 255) (h3 : m3 ≤ 255)
    (h : derive dev op p rand6 m1 m2 m3 = .ok rec) :
    rec.cc_macaddress.length = 17 ∧ macShape rec.cc_macaddress.data = true ∧
      pyTake 8 rec.cc_macaddress = pyUpper dev.bb_mac_pre := by
  obtain ⟨ck1, ck2, _, _, hrec⟩ := derive_ok h
  subst hrec
  exact buildMac_shape hpre h1 h2 h3

/-- C6 witness: the record derived from `wDev` (prefix `"00:1a:2b"`) with
octets 255, 0, 171 has a well-formed 17-character MAC that preserves the
uppercased prefix. -/
theorem c6_witness :
    wDRec.cc_macaddress.length = 17 ∧ macShape wDRec.cc_macaddress.data = true ∧
      pyTake 8 wDRec.cc_macaddress = pyUpper wDev.bb_mac_pre :=
  c6_mac_wellformed (by decide) (by decide) (by decide) (by decide)
    (rfl : derive wDev wOp "123456" 0 255 0 171 = Except.ok wDRec)

/-! ## The retry loop: C8, C10, C3, C4 -/

theorem get_phone_data_loop_length {attempt : Nat → Except Err PhoneRec} {qty : Nat} :
    ∀ fuel i acc res, acc.length ≤ qty →
      get_phone_data_loop attempt qty fuel i acc = some res → res.length = qty := by
  intro fuel
  induction fuel with
  | zero =>
    intro i acc res hle h
    unfold get_phone_data_loop at h
    split at h
    · exact absurd h (by simp)
    · rename_i hge
      injection h with h
      subst h
      omega
  | succ f ih =>
    intro i acc res hle h
    unfold get_phone_data_loop at h
    split at h
    · rename_i hlt
      split at h
      · rename_i r hr
        exact ih (i + 1) (acc ++ [r]) res (by simp; omega) h
      · exact ih (i + 1) acc res (by omega) h
    · rename_i hge
      injection h with h
      subst h
      omega

theorem get_phone_data_loop_all_errors {attempt : Nat → Except Err PhoneRec} {qty : Nat}
    (herr : ∀ i r, ¬ attempt i = .ok r) :
    ∀ fuel i acc, acc.length < qty → get_phone_data_loop attempt qty fuel i acc = none := by
  intro fuel
  induction fuel with
  | zero =>
    intro i acc hlt
    unfold get_phone_data_loop
    rw [if_pos hlt]
  | succ f ih =>
    intro i acc hlt
    unfold get_phone_data_loop
    rw [if_pos hlt]
    cases hatt : attempt i with
    | ok r => exact absurd hatt (herr i r)
    | error e => exact ih (i + 1) acc hlt

/-- Any configuration whose every synthesis attempt raises makes
`get_phone_data` loop forever: for every fuel bound the loop is still
running and nothing is ever returned or propagated to the caller. -/
theorem get_phone_data_all_errors {self : RandomPhone} {ph : Option String}
    {sel : Nat → Nat → Nat} {devIdx opIdx rand6 m1 m2 m3 : Nat → Nat} {qty : Nat}
    (hq : 1 ≤ qty)
    (herr : ∀ i r, ¬ _get_phone_data self ph (sel i) (devIdx i) (opIdx i) (rand6 i)
      (m1 i) (m2 i) (m3 i) = .ok r) :
    ∀ fuel, get_phone_data self ph sel devIdx opIdx rand6 m1 m2 m3 qty fuel = none := by
  intro fuel
  unfold get_phone_data
  rw [get_phone_data_loop_all_errors herr fuel 0 [] (by simp; omega)]
  rfl

/-- C8: whenever `get_phone_data` returns within the fuel bound and
`qty ≥ 1`, the result is a single record for `qty = 1` (not a length-1
collection) and an ordered collection of exactly `qty` records for
`qty > 1`, for any state, phone number and random draws. -/
theorem c8_get_phone_data_count {self : RandomPhone} {ph : Option String}
    {sel : Nat → Nat → Nat} {devIdx opIdx rand6 m1 m2 m3 : Nat → Nat}
    {qty fuel : Nat} {res : Except Err GetPhoneDataResult}
    (hq : 1 ≤ qty)
    (h : get_phone_data self ph sel devIdx opIdx rand6 m1 m2 m3 qty fuel = some res) :
    (qty = 1 → ∃ r, res = .ok (.single r)) ∧
      (2 ≤ qty → ∃ l, res = .ok (.many l) ∧ l.length = qty) := by
  unfold get_phone_data at h
  rw [Option.map_eq_some'] at h
  obtain ⟨out, hl, hres⟩ := h
  have hlen : out.length = qty := get_phone_data_loop_length fuel 0 [] out (by simp) hl
  constructor
  · intro h1
    subst h1
    cases out with
    | nil => simp at hlen
    | cons r rest =>
      cases rest with
      | nil => exact ⟨r, hres.symm⟩
      | cons r2 rest2 => simp at hlen
  · intro h2
    cases out with
    | nil => simp at hlen; omega
    | cons r rest =>
      cases rest with
      | nil => simp at hlen; omega
      | cons r2 rest2 => exact ⟨r :: r2 :: rest2, hres.symm, hlen⟩

/-- C8 witness: with the concrete state `wSelf`, `qty = 2` and two
successful attempts, the call returns an ordered collection of exactly 2
records. -/
theorem c8_witness :
    1 ≤ 2 ∧ (((2 : Nat) = 1 → ∃ r, wOut2 = .ok (.single r)) ∧
      (2 ≤ 2 → ∃ l, wOut2 = .ok (.many l) ∧ l.length = 2)) :=
  ⟨by decide, c8_get_phone_data_count (by decide)
    (rfl : get_phone_data wSelf (some "123456") (fun _ _ => 0) (fun _ => 0) (fun _ => 0)
      (fun _ => 0) (fun _ => 255) (fun _ => 0) (fun _ => 171) 2 2 = some wOut2)⟩

/-- C10: calling `get_phone_data` with `qty = 0` never yields an empty
collection: the retry loop collects zero records and the call fails with
the `ValueError` that `pd.concat` raises on an empty list of results. -/
theorem c10_qty_zero_concat_error (self : RandomPhone) (ph : Option String)
    (sel : Nat → Nat → Nat) (devIdx opIdx rand6 m1 m2 m3 : Nat → Nat) (fuel : Nat) :
    get_phone_data self ph sel devIdx opIdx rand6 m1 m2 m3 0 fuel
      = some (.error .noObjectsToConcatenate) := by
  unfold get_phone_data
  have hloop : ∀ (att : Nat → Except Err PhoneRec) (fl : Nat),
      get_phone_data_loop att 0 fl 0 [] = some [] := by
    intro att fl
    cases fl <;> rfl
  rw [hloop]
  rfl

/-- C3 counterexample: with no explicit phone number and no format
specification, the single synthesis attempt raises the `ValueError`
(`needPhoneNumber`), yet `get_phone_data` does not propagate it: after
100 loop iterations it is still retrying and nothing has reached the
caller. -/
theorem c3_counterexample :
    _get_phone_data wSelf none (fun _ => 0) 0 0 0 0 0 0
        = Except.error Err.needPhoneNumber ∧
      get_phone_data wSelf none (fun _ _ => 0) (fun _ => 0) (fun _ => 0) (fun _ => 0)
        (fun _ => 0) (fun _ => 0) (fun _ => 0) 1 100 = none := by decide

/-- C3 (amended): when neither a truthy explicit phone number nor a format
chunk is available, every single synthesis attempt fails immediately with
the `ValueError` of `_get_phone_number`; but invoked through
`get_phone_data`, the catch-all retry loop silently swallows and retries
the error indefinitely (for every fuel bound the call has not returned),
so it is never propagated to the caller. -/
theorem c3_config_error_swallowed {self : RandomPhone} {ph : Option String}
    (hfmt : self.phone_format_without_country = []) (hph : truthy ph = false)
    (sel : Nat → Nat → Nat) (devIdx opIdx rand6 m1 m2 m3 : Nat → Nat) {qty : Nat}
    (hq : 1 ≤ qty) :
    (∀ i, _get_phone_data self ph (sel i) (devIdx i) (opIdx i) (rand6 i) (m1 i) (m2 i)
        (m3 i) = .error .needPhoneNumber) ∧
      ∀ fuel, get_phone_data self ph sel devIdx opIdx rand6 m1 m2 m3 qty fuel = none := by
  have hnum : ∀ s : Nat → Nat,
      _get_phone_number self.phone_format_without_country ph s
        = .error .needPhoneNumber := by
    intro s
    unfold _get_phone_number
    rw [hph, hfmt]
    rfl
  have hdata : ∀ i, _get_phone_data self ph (sel i) (devIdx i) (opIdx i) (rand6 i) (m1 i)
      (m2 i) (m3 i) = .error .needPhoneNumber := by
    intro i
    unfold _get_phone_data
    rw [hnum (sel i)]
  refine ⟨hdata, get_phone_data_all_errors hq ?_⟩
  intro i r hc
  rw [hdata i] at hc
  exact Except.noConfusion hc

/-- C3 witness: the amended statement at the concrete state `wSelf` (empty
format), no phone number and `qty = 1`. -/
theorem c3_witness :
    (∀ _i : Nat, _get_phone_data wSelf none (fun _ => 0) 0 0 0 0 0 0
        = Except.error Err.needPhoneNumber) ∧
      ∀ fuel, get_phone_data wSelf none (fun _ _ => 0) (fun _ => 0) (fun _ => 0)
        (fun _ => 0) (fun _ => 0) (fun _ => 0) (fun _ => 0) 1 fuel = none :=
  c3_config_error_swallowed (rfl : wSelf.phone_format_without_country = [])
    (rfl : truthy none = false) (fun _ _ => 0) (fun _ => 0) (fun _ => 0) (fun _ => 0)
    (fun _ => 0) (fun _ => 0) (fun _ => 0) (by decide)

/-- C4: with an operator table filtered to zero rows, the sampling step of
every synthesis attempt raises (`DataFrame.sample` on an empty frame), but
`get_phone_data` never surfaces any failure: the catch-all retry loop
swallows the error and for every fuel bound the call is still retrying,
so no "no matching operator data" failure ever reaches the caller. -/
theorem c4_empty_operator_data_never_surfaced :
    _get_phone_data wSelfNoOps (some "123") (fun _ => 0) 0 0 0 0 0 0
        = Except.error Err.emptySample ∧
      ∀ fuel, get_phone_data wSelfNoOps (some "123") (fun _ _ => 0) (fun _ => 0)
        (fun _ => 0) (fun _ => 0) (fun _ => 0) (fun _ => 0) (fun _ => 0) 1 fuel
        = none := by
  constructor
  · rfl
  · refine get_phone_data_all_errors (by decide) ?_
    intro _ r hc
    exact Except.noConfusion ((show _get_phone_data wSelfNoOps (some "123")
      (fun _ => (0 : Nat)) 0 0 0 0 0 0 = Except.error Err.emptySample from rfl).symm.trans hc)

/-! ## C9: phone numbers built from a format specification -/

theorem c9_key : ∀ (s : Nat → Nat), s 0 % 2 = 0 →
    _get_phone_number [["11", "12"], ["9"], ["0001"]] none s = .ok "1190001" := by
  intro s hs
  unfold _get_phone_number
  simp only [truthy, Bool.false_eq_true, if_false, List.isEmpty, ite_false,
    chooseFrags, chooseFrag, List.length_cons, List.length_nil, Nat.zero_add,
    Nat.mod_one, hs, List.getD_cons_zero]
  rfl

theorem c9_key' : ∀ (s : Nat → Nat), s 0 % 2 = 1 →
    _get_phone_number [["11", "12"], ["9"], ["0001"]] none s = .ok "1290001" := by
  intro s hs
  unfold _get_phone_number
  simp only [truthy, Bool.false_eq_true, if_false, List.isEmpty, ite_false,
    chooseFrags, chooseFrag, List.length_cons, List.length_nil, Nat.zero_add,
    Nat.mod_one, hs, List.getD_cons_succ, List.getD_cons_zero]
  rfl

/-- C9: for a `RandomPhone` constructed with the format chunks
`[["11","12"], ["9"], ["0001"]]` and no explicit phone number, every phone
number the builder can produce (over all possible random chunk choices) is
either `"1190001"` or `"1290001"`. -/
theorem c9_format_phone_numbers {df : List DeviceRow} {df2 : List OperatorRow}
    {self : RandomPhone} {sel : Nat → Nat} {p : String}
    (hinit : RandomPhone.init [["11", "12"], ["9"], ["0001"]] df df2 = some self)
    (h : _get_phone_number self.phone_format_without_country none sel = .ok p) :
    p = "1190001" ∨ p = "1290001" := by
  have he : RandomPhone.init [["11", "12"], ["9"], ["0001"]] df df2
      = some ⟨[["11", "12"], ["9"], ["0001"]], df, df2⟩ := rfl
  rw [he] at hinit
  injection hinit with hinit
  rw [← hinit] at h
  rcases Nat.mod_two_eq_zero_or_one (sel 0) with h0 | h0
  · rw [c9_key sel h0] at h
    injection h with h
    exact Or.inl h.symm
  · rw [c9_key' sel h0] at h
    injection h with h
    exact Or.inr h.symm

/-- C9 witness: the concrete construction normalizes to the same chunks,
and the selection that draws the first fragment of every chunk produces
`"1190001"`. -/
theorem c9_witness :
    RandomPhone.init [["11", "12"], ["9"], ["0001"]] [wDev] [wOp] = some wSelfFmt ∧
      _get_phone_number wSelfFmt.phone_format_without_country none (fun _ => 0)
        = .ok "1190001" ∧
      ("1190001" = "1190001" ∨ "1190001" = "1290001") :=
  ⟨rfl, rfl, c9_format_phone_numbers
    (rfl : RandomPhone.init [["11", "12"], ["9"], ["0001"]] [wDev] [wOp] = some wSelfFmt)
    (rfl : _get_phone_number wSelfFmt.phone_format_without_country none (fun _ => 0)
      = .ok "1190001")⟩
